import Mathlib

/-!
# Verification of `editor-lite` (src/index.js)

A shallow embedding of the pure / observable logic of the `editor-lite`
WYSIWYG widget, together with theorems settling the specification claims.

Modelling conventions:
* DOM side effects (`doc.execCommand`, `e.preventDefault()`,
  `domsel.expandToWord()`) are recorded as an explicit trace of actions.
* The native `Selection` object is a record carrying the two observations
  the code makes of it (`domsel.isCollapsed`, `domsel.isWithin`).
* JS falsiness of a string is emptiness; of a number is being zero;
  of an optional object is `Option.isNone`.
* Timers (`setTimeout` inside `debounce`) are modelled by a discrete-event
  simulator whose step rule mirrors the closure in `debounce` exactly.
* Strings are `List Char`; the specific regex replacements of
  `cleanHTML` / `minifyHTML` / `safeHTML` are implemented as left-to-right
  single-pass scanners, which is the semantics of `String.replace` with a
  global regex.
-/

namespace EditorLite

/-- A DOM-visible action performed while running a command. -/
inductive Act where
  | prevent : Act                -- `e.preventDefault()`
  | expand : Act                 -- `domsel.expandToWord()` via `expandSelection`
  | exec : String → Act          -- `doc.execCommand(name)` via `execute(cmd[0])`
  | execUndefined : Act          -- `doc.execCommand(undefined)`: `execute(cmd[0])`
                                 -- where the looked-up `cmd` has no `[0]` property
  deriving DecidableEq, Repr

/-- The static command table `cmds` of src/index.js (lines 30–46): short tag ↦
(native command name, whether a selection is required — the `1` marker). -/
def cmds : String → Option (String × Bool)
  | "ul" => some ("insertUnorderedList", false)
  | "ol" => some ("insertOrderedList", false)
  | "u" => some ("underline", true)
  | "b" => some ("bold", true)
  | "i" => some ("italic", true)
  | "a" => some ("createLink", true)
  | "sub" => some ("subscript", true)
  | "sup" => some ("superscript", true)
  | "strike" => some ("strikeThrough", true)
  | "center" => some ("justifyCenter", false)
  | "right" => some ("justifyRight", false)
  | "left" => some ("justifyLeft", false)
  | "full" => some ("justifyFull", false)
  | "out" => some ("outdent", false)
  | "in" => some ("indent", false)
  | _ => none

/-- The members every plain object literal inherits from `Object.prototype`:
a JS lookup `cmds[tag]` with one of these names yields a truthy value even
though the name is not an entry of the table itself. -/
def protoKeys : List String :=
  ["constructor", "hasOwnProperty", "isPrototypeOf", "propertyIsEnumerable",
   "toLocaleString", "toString", "valueOf", "__proto__", "__defineGetter__",
   "__defineSetter__", "__lookupGetter__", "__lookupSetter__"]

/-- The possible results of the JS property access `cmds[tag]`: an own entry
of the table, a truthy member inherited from `Object.prototype` (whose `[0]`
and `[1]` properties are both `undefined`), or `undefined`. -/
inductive CmdLookup where
  | table : String × Bool → CmdLookup
  | proto : CmdLookup
  | missing : CmdLookup
  deriving DecidableEq, Repr

/-- `var cmd = cmds[tag]` (src/index.js line 394): JS property lookup on the
object literal `cmds`, prototype chain included. -/
def cmdsLookup (tag : String) : CmdLookup :=
  match cmds tag with
  | some p => CmdLookup.table p
  | none => if tag ∈ protoKeys then CmdLookup.proto else CmdLookup.missing

/-- `runCommand(tag, e)` (src/index.js lines 393–402), as the trace of DOM
actions it performs.  `hasSel` is the value of `this.hasSelection()` seen as
a boolean; `hasEvent` is whether the optional event `e` was passed (truthy).
When the lookup hits an inherited `Object.prototype` member, `cmd` is truthy
so the guard does not return: `cmd[1]` is `undefined` (no expansion) and
`execute(cmd[0])` runs `doc.execCommand(undefined)`. -/
def runCommand (tag : String) (hasSel : Bool) (hasEvent : Bool) : List Act :=
  match cmdsLookup tag with
  | CmdLookup.missing => []       -- `if (!tag || !cmd) return;` (cmd falsy)
  | CmdLookup.table cmd =>
    if tag = "" then []          -- `!tag` guard (falsy tag)
    else
      (if hasEvent then [Act.prevent] else []) ++
      (if cmd.2 && !hasSel then [Act.expand] else []) ++
      [Act.exec cmd.1]
  | CmdLookup.proto =>
    if tag = "" then []          -- `!tag` guard (falsy tag)
    else
      (if hasEvent then [Act.prevent] else []) ++ [Act.execUndefined]

/-- The native-command names invoked in a trace, in order. -/
def execNames (acts : List Act) : List String :=
  acts.filterMap fun a => match a with
    | Act.exec n => some n
    | _ => none

/-- The native `Selection`, observed through the two predicates the code
consults: `domsel.isCollapsed(sel)` and `domsel.isWithin(this.el, sel)`. -/
structure Selection where
  collapsed : Bool   -- `domsel.isCollapsed(sel)`
  within : Bool      -- `domsel.isWithin(this.el, sel)`
  deriving DecidableEq, Repr

/-- `hasSelection()` (src/index.js lines 346–349):
`!domsel.isCollapsed(sel) && domsel.isWithin(this.el, sel) && sel`.
Returns the selection object (truthy) or a falsy value, modelled as `Option`.
It reads the ambient selection and performs no writes, so it is a pure
function of the observed selection. -/
def hasSelection (sel : Selection) : Option Selection :=
  if !sel.collapsed && sel.within then some sel else none

/-- The interval actually armed for `autoSave` / `autoSync` at construction
(src/index.js lines 231–238): falsy `ms` arms nothing; a truthy `ms` is
clamped by `ms = self.opts[op] = Math.max(ms, 1500)` and stored back. -/
def armedInterval (ms : Int) : Option Int :=
  if ms = 0 then none else some (max ms 1500)

/-- One `debounce(func, wait)` closure (src/index.js lines 82–112), run as a
discrete-event simulation.  Arguments: the time-ordered future calls of the
debounced wrapper, the saved `time` of the latest call, and the scheduled run
time of the pending `later` timeout (`none` when no timer is armed).  Result:
the times at which `func` itself is invoked.  The branches mirror the source:
a call saves `time` and arms the timer only when none is pending
(`if (!timeout) timeout = setTimeout(later, wait)`); when the timer runs,
`later` computes `last = Date.now() - time` and either re-arms for
`wait - last` (so the new deadline is `time + wait`) when `last < wait`, or
clears the timer and runs `func`.  When both a call and the timer are due,
the timer callback is processed first (`c < d` means the call comes first). -/
def debRun (wait : Nat) (calls : List Nat) (time : Nat) (timeout : Option Nat) :
    List Nat :=
  match calls, timeout with
  | [], none => []
  | c :: rest, none => debRun wait rest c (some (c + wait))
  | [], some d =>
    if d - time < wait then debRun wait [] time (some (time + wait))
    else d :: debRun wait [] time none
  | c :: rest, some d =>
    if c < d then debRun wait rest c (some d)
    else if d - time < wait then debRun wait (c :: rest) time (some (time + wait))
    else d :: debRun wait (c :: rest) time none
termination_by
  2 * calls.length + (match timeout with
    | none => 0
    | some d => if d < time + wait then 2 else 1)
decreasing_by
  all_goals simp_wf
  all_goals (repeat' split)
  all_goals omega

/-- A fresh debounced wrapper has no saved state and no pending timer; the
first call arms the timer for `wait` from that call. -/
def debounceRun (wait : Nat) (calls : List Nat) : List Nat :=
  debRun wait calls 0 none

/-! ### The string pipeline of `cleanHTML` / `minifyHTML` / `safeHTML`

Each JS `String.replace` with a global regex is one left-to-right pass that
replaces non-overlapping leftmost matches and resumes after each replacement.
The regexes involved are simple enough that each pass is implemented below as
a structurally recursive scanner over `List Char`. -/

/-- `.replace(/\n|<br[\/]?>/g, '')` — first step of `cleanHTML` (line 460).
The greedy `[\/]?` prefers `<br/>` over `<br>` where both could start. -/
def stripBreaks : List Char → List Char
  | [] => []
  | '\n' :: cs => stripBreaks cs
  | '<' :: 'b' :: 'r' :: '/' :: '>' :: cs => stripBreaks cs
  | '<' :: 'b' :: 'r' :: '>' :: cs => stripBreaks cs
  | c :: cs => c :: stripBreaks cs

/-- `.replace(/<div><\/div>|<p><\/p>/g, '')` — second step of `cleanHTML`
(line 461): at each position try `<div></div>` then `<p></p>` and skip past
a match, otherwise advance one character.  `fuel` bounds the number of
scanned positions; `l.length` always suffices, as every step consumes at
least one input character. -/
def stripEmptyBlocksGo : Nat → List Char → List Char
  | 0, l => l
  | _, [] => []
  | fuel + 1, c :: cs =>
    if "<div></div>".data.isPrefixOf (c :: cs) then
      stripEmptyBlocksGo fuel (List.drop 11 (c :: cs))
    else if "<p></p>".data.isPrefixOf (c :: cs) then
      stripEmptyBlocksGo fuel (List.drop 7 (c :: cs))
    else c :: stripEmptyBlocksGo fuel cs

/-- One pass of the empty-`div`/`p` removal (line 461). -/
def stripEmptyBlocks (l : List Char) : List Char :=
  stripEmptyBlocksGo l.length l

/-- `.replace(/&nbsp;/g, ' ')` — third step of `cleanHTML` (line 462). -/
def replaceNbsp : List Char → List Char
  | [] => []
  | '&' :: 'n' :: 'b' :: 's' :: 'p' :: ';' :: cs => ' ' :: replaceNbsp cs
  | c :: cs => c :: replaceNbsp cs

mutual
/-- `.replace(/[\t\t]+</g, '<')` — first step of `minifyHTML` (line 471).
The character class `[\t\t]` contains only TAB, so this deletes runs of tabs
immediately preceding a `<`. -/
def tabsLt : List Char → List Char
  | [] => []
  | '\t' :: cs => tabsLtRun 0 cs
  | c :: cs => c :: tabsLt cs

/-- Scanner state of `tabsLt` inside a run of `n + 1` tabs: a following `<`
completes a match (the tabs are dropped), anything else emits the run
verbatim (no suffix of a tab run can start a new match). -/
def tabsLtRun (n : Nat) : List Char → List Char
  | '\t' :: cs => tabsLtRun (n + 1) cs
  | '<' :: cs => '<' :: tabsLt cs
  | [] => List.replicate (n + 1) '\t'
  | c :: cs => List.replicate (n + 1) '\t' ++ c :: tabsLt cs
end

mutual
/-- `.replace(/>[\t\t]+</g, '><')` — second step of `minifyHTML` (line 472):
runs of tabs between `>` and `<` are dropped. -/
def gtTabs : List Char → List Char
  | [] => []
  | '>' :: cs => gtTabsGt cs
  | c :: cs => c :: gtTabs cs

/-- Scanner state of `gtTabs` just after an unemitted `>`. -/
def gtTabsGt : List Char → List Char
  | '\t' :: cs => gtTabsRun 0 cs
  | [] => ['>']
  | '>' :: cs => '>' :: gtTabsGt cs
  | c :: cs => '>' :: c :: gtTabs cs

/-- Scanner state of `gtTabs` after an unemitted `>` and `n + 1` tabs: a `<`
completes the match (replacement `><`); a `>` aborts this match but may start
a new one; anything else emits everything verbatim. -/
def gtTabsRun (n : Nat) : List Char → List Char
  | '\t' :: cs => gtTabsRun (n + 1) cs
  | '<' :: cs => '>' :: '<' :: gtTabs cs
  | [] => '>' :: List.replicate (n + 1) '\t'
  | '>' :: cs => '>' :: List.replicate (n + 1) '\t' ++ gtTabsGt cs
  | c :: cs => '>' :: List.replicate (n + 1) '\t' ++ c :: gtTabs cs
end

/-- Is the list a non-empty run of tabs (the `[\t\t]+$` part of line 473)? -/
def tabsToEnd (l : List Char) : Bool :=
  !l.isEmpty && l.all (fun c => c = '\t')

/-- `.replace(/>[\t\t]+$/g, '>')` — third step of `minifyHTML` (line 473):
a final `>` followed only by tabs up to the end of the string loses the
tabs. -/
def gtTabsEnd : List Char → List Char
  | [] => []
  | '>' :: cs => if tabsToEnd cs then ['>'] else '>' :: gtTabsEnd cs
  | c :: cs => c :: gtTabsEnd cs

/-- The JS regex class `\s` (ECMA-262 WhiteSpace ∪ LineTerminator). -/
def isWS (c : Char) : Bool :=
  c = ' ' || c = '\t' || c = '\n' || c = '\r' ||
  c.toNat = 0xb || c.toNat = 0xc ||
  c.toNat = 0xa0 || c.toNat = 0x1680 ||
  (0x2000 ≤ c.toNat && c.toNat ≤ 0x200a) ||
  c.toNat = 0x2028 || c.toNat = 0x2029 || c.toNat = 0x202f ||
  c.toNat = 0x205f || c.toNat = 0x3000 || c.toNat = 0xfeff

mutual
/-- `.replace(/\s\s+/g, ' ')` — last step of `minifyHTML` (line 474): a run
of two or more whitespace characters becomes a single space; a lone
whitespace character is left as is. -/
def shrinkWS : List Char → List Char
  | [] => []
  | c :: cs => if isWS c then shrinkRun c 0 cs else c :: shrinkWS cs

/-- Scanner state of `shrinkWS` inside a whitespace run: `c0` is the first
character of the run and `n` the number of further whitespace characters
seen so far. -/
def shrinkRun (c0 : Char) (n : Nat) : List Char → List Char
  | [] => if n = 0 then [c0] else [' ']
  | c :: cs =>
    if isWS c then shrinkRun c0 (n + 1) cs
    else (if n = 0 then c0 else ' ') :: c :: shrinkWS cs
end

/-- `cleanHTML()` (src/index.js lines 456–463) as a pure transformation of
the element's HTML string. -/
def cleanHTMLstr (l : List Char) : List Char :=
  replaceNbsp (stripEmptyBlocks (stripBreaks l))

/-- `minifyHTML()` (src/index.js lines 469–475): `cleanHTML` followed by the
four whitespace replacements, in source order. -/
def minifyHTMLstr (l : List Char) : List Char :=
  shrinkWS (gtTabsEnd (gtTabs (tabsLt (cleanHTMLstr l))))

/-- Case-insensitive literal prefix match (for the `i` regex flag): on
success, the rest of the input after the pattern. -/
def ciDrop : List Char → List Char → Option (List Char)
  | [], s => some s
  | _ :: _, [] => none
  | p :: ps, c :: cs => if c.toLower = p then ciDrop ps cs else none

/-- Consume `[^>]*>`: drop everything up to and including the first `>`. -/
def dropToGt : List Char → Option (List Char)
  | [] => none
  | '>' :: cs => some cs
  | _ :: cs => dropToGt cs

/-- The lazy `[\S\s]*?<\/script[^>]*>` tail of the `safeHTML` regex: scan
forward for the nearest close tag and return the remainder after its `>`. -/
def findClose : List Char → Option (List Char)
  | [] => none
  | c :: cs =>
    match ciDrop ['<', '/', 's', 'c', 'r', 'i', 'p', 't'] (c :: cs) with
    | some rest =>
      match dropToGt rest with
      | some r => some r
      | none => findClose cs
    | none => findClose cs

/-- `.replace(/<script[^>]*>[\S\s]*?<\/script[^>]*>/ig, '')` (line 449),
with `fuel` bounding the number of scanned positions — `l.length` always
suffices, since every step consumes at least one input character. -/
def stripScriptsGo : Nat → List Char → List Char
  | 0, l => l
  | _, [] => []
  | fuel + 1, c :: cs =>
    match ciDrop ['<', 's', 'c', 'r', 'i', 'p', 't'] (c :: cs) with
    | some rest =>
      match dropToGt rest with
      | some body =>
        match findClose body with
        | some after => stripScriptsGo fuel after
        | none => c :: stripScriptsGo fuel cs
      | none => c :: stripScriptsGo fuel cs
    | none => c :: stripScriptsGo fuel cs

/-- The script-stripping replacement used by `safeHTML()` (line 449). -/
def stripScripts (l : List Char) : List Char :=
  stripScriptsGo l.length l

/-! ### The Editor instance state

Only the parts of an `Editor` the settled claims observe are modelled: the
element's HTML content, the configured airbar element (by its class list),
the `airActive` flag, the registered toolbar/airbar buttons (as opaque ids),
the companion input's value, and the current native selection. -/

structure EditorState where
  content : List Char              -- `this.el.innerHTML`
  airbar : Option (List String)    -- `opts.airbar`: `false` or its classList
  airActive : Bool                 -- `this.airActive` (undefined reads falsy)
  buttons : List Nat               -- `this.buttons` (nodes as opaque ids)
  input : Option (List Char)       -- `opts.input`: `false` or its `value`
  selection : Selection            -- current native selection
  deriving DecidableEq, Repr

/-- `DOMTokenList.add`: a token set — adding a present token is a no-op. -/
def classAdd (cls : List String) (c : String) : List String :=
  if c ∈ cls then cls else cls ++ [c]

/-- `DOMTokenList.remove`. -/
def classRemove (cls : List String) (c : String) : List String :=
  cls.filter (fun x => x != c)

/-- `showAirbar()` (src/index.js lines 486–492). -/
def showAirbar (s : EditorState) : EditorState :=
  match s.airbar with
  | some cls =>
    if !s.airActive then
      { s with airbar := some (classAdd cls "active"), airActive := true }
    else s
  | none => s

/-- `hideAirbar()` (src/index.js lines 497–503). -/
def hideAirbar (s : EditorState) : EditorState :=
  match s.airbar with
  | some cls =>
    if s.airActive then
      { s with airbar := some (classRemove cls "active"), airActive := false }
    else s
  | none => s

/-- `toggleAirbar()` (src/index.js lines 508–511). -/
def toggleAirbar (s : EditorState) : EditorState :=
  if s.airActive then hideAirbar s else showAirbar s

/-- `hasSelection()` on the instance: reads the current native selection. -/
def hasSelectionState (s : EditorState) : Option Selection :=
  hasSelection s.selection

/-- `sync()` (src/index.js lines 380–384): copy the minified HTML into the
companion input, when one is configured, then emit `editor_sync` (the event
dispatch itself does not change the modelled state). -/
def sync (s : EditorState) : EditorState :=
  match s.input with
  | some _ => { s with input := some (minifyHTMLstr s.content) }
  | none => s

/-- `onBlur(e)` (src/index.js lines 260–267): when `e.relatedTarget` is one
of the registered toolbar/airbar buttons the handler returns immediately;
otherwise it syncs, hides the airbar and invokes the user callback. -/
def onBlur (s : EditorState) (relatedTarget : Option Nat) : EditorState :=
  if (match relatedTarget with
      | some b => decide (b ∈ s.buttons)
      | none => false) then s
  else hideAirbar (sync s)

/-- `onFocus(e)` (src/index.js lines 273–276). -/
def onFocus (s : EditorState) : EditorState :=
  match hasSelectionState s with
  | some _ => showAirbar s
  | none => s

/-- `onSelection(sel)` (src/index.js lines 333–340): snapping the native
selection and the user callback do not change the modelled state; the airbar
is shown. -/
def onSelection (s : EditorState) : EditorState :=
  showAirbar s

/-- `onMouseup()` (src/index.js lines 323–327). -/
def onMouseup (s : EditorState) : EditorState :=
  match hasSelectionState s with
  | some _ => onSelection s
  | none => hideAirbar s

/-- `setHTML(str)` (src/index.js lines 432–434): `this.el.innerHTML = str || ''`. -/
def setHTML (s : EditorState) (str : List Char) : EditorState :=
  { s with content := if str.isEmpty then [] else str }

/-- `getHTML()` (src/index.js lines 440–442). -/
def getHTML (s : EditorState) : List Char :=
  s.content

/-- `safeHTML()` (src/index.js lines 448–450). -/
def safeHTML (s : EditorState) : List Char :=
  stripScripts (getHTML s)

/-- `minifyHTML()` on the instance. -/
def minifyHTML (s : EditorState) : List Char :=
  minifyHTMLstr (getHTML s)

/-- The implicit invariant of the airbar controller: when an airbar is
configured, `airActive` holds exactly when its class list contains
`"active"`. -/
def airbarInv (s : EditorState) : Bool :=
  match s.airbar with
  | some cls => s.airActive == decide ("active" ∈ cls)
  | none => true

/-- Does the list end in `>` followed by one or more tabs (a match of the
`/>[\t\t]+$/` regex)? -/
def hasGtTabsSuffix : List Char → Bool
  | [] => false
  | '>' :: cs => tabsToEnd cs || hasGtTabsSuffix cs
  | _ :: cs => hasGtTabsSuffix cs

/-- Does the list contain two adjacent whitespace characters (a match of the
`/\s\s+/` regex)? -/
def hasWW : List Char → Bool
  | c1 :: c2 :: cs => (isWS c1 && isWS c2) || hasWW (c2 :: cs)
  | _ => false

/-! ## Helper lemmas -/

/-- The empty (falsy) tag is not in the command table. -/
theorem cmds_empty : cmds "" = none := rfl

/-- Shifting the default of `getLastD` across a cons. -/
theorem getLastD_cons_eq {α : Type} (a b : α) (l : List α) :
    (b :: l).getLastD a = l.getLastD b := by
  cases l <;> simp [List.getLastD]

/-- When an airbar element is configured, `hideAirbar` always leaves
`airActive` false: it either clears the flag or finds it already clear. -/
theorem hideAirbar_airActive (s : EditorState) (cls : List String)
    (hbar : s.airbar = some cls) : (hideAirbar s).airActive = false := by
  simp only [hideAirbar, hbar]
  split
  · rfl
  · rename_i hact
    simpa using hact

/-- `sync` touches only the companion input: airbar fields are unchanged. -/
theorem sync_airbar (s : EditorState) :
    (sync s).airbar = s.airbar ∧ (sync s).airActive = s.airActive := by
  unfold sync
  split <;> simp

/-- `showAirbar` preserves the airbar/classList equivalence. -/
theorem airbarInv_show (s : EditorState) (h : airbarInv s = true) :
    airbarInv (showAirbar s) = true := by
  obtain ⟨content, airbar, airActive, buttons, input, selection⟩ := s
  rcases airbar with _ | cls
  · simpa [showAirbar] using h
  · cases airActive
    · simp [airbarInv, showAirbar, classAdd]
      split <;> simp_all
    · simpa [showAirbar] using h

/-- `hideAirbar` preserves the airbar/classList equivalence. -/
theorem airbarInv_hide (s : EditorState) (h : airbarInv s = true) :
    airbarInv (hideAirbar s) = true := by
  obtain ⟨content, airbar, airActive, buttons, input, selection⟩ := s
  rcases airbar with _ | cls <;> cases airActive <;>
    simp_all [airbarInv, hideAirbar, classRemove, List.mem_filter]

/-- `sync` preserves the airbar/classList equivalence. -/
theorem airbarInv_sync (s : EditorState) (h : airbarInv s = true) :
    airbarInv (sync s) = true := by
  obtain ⟨hbar, hact⟩ := sync_airbar s
  unfold airbarInv at h ⊢
  rw [hbar, hact]
  exact h

/-! ## Claim C1 -/

/-- Claim C1: for every tag present in the command table, `runCommand(tag)`
invokes exactly one native formatting call, with the mapped command name; and
when the command requires an active selection and `hasSelection()` is falsy,
the caret is first expanded (`expandSelection`) immediately before that
single native call. -/
theorem runCommand_single_exec (tag name : String) (req : Bool)
    (hasSel hasEvent : Bool) (h : cmds tag = some (name, req)) :
    execNames (runCommand tag hasSel hasEvent) = [name] ∧
    (req = true → hasSel = false →
      runCommand tag hasSel hasEvent =
        (if hasEvent then [Act.prevent] else []) ++ [Act.expand, Act.exec name]) := by
  have htag : tag ≠ "" := fun e => by rw [e, cmds_empty] at h; cases h
  constructor
  · simp only [runCommand, cmdsLookup, h, if_neg htag]
    cases hasEvent <;> cases req <;> cases hasSel <;> simp [execNames]
  · intro hr hs
    subst hr; subst hs
    simp [runCommand, cmdsLookup, h, if_neg htag]

/-- Witness for C1 at the `"b"`/`bold` entry with no active selection. -/
theorem runCommand_single_exec_witness :
    execNames (runCommand "b" false true) = ["bold"] ∧
    (true = true → false = false →
      runCommand "b" false true =
        (if true then [Act.prevent] else []) ++ [Act.expand, Act.exec "bold"]) :=
  runCommand_single_exec "b" "bold" true false true rfl

/-! ## Claim C2 -/

/-- Claim C2: `hasSelection()` returns the selection object exactly when the
selection is non-collapsed and within the target element's subtree, and a
falsy value exactly when it is collapsed or out of bounds.  It is a pure
function of the observed selection (no side effects by construction). -/
theorem hasSelection_spec (sel : Selection) :
    (hasSelection sel = some sel ↔ sel.collapsed = false ∧ sel.within = true) ∧
    (hasSelection sel = none ↔ sel.collapsed = true ∨ sel.within = false) := by
  rcases sel with ⟨c, w⟩
  cases c <;> cases w <;> simp [hasSelection]

/-! ## Claim C5 -/

/-- Claim C5: `showAirbar` while shown and `hideAirbar` while hidden are
no-ops (the whole state, class list included, is unchanged), so each is
idempotent: the second of two consecutive calls changes nothing. -/
theorem airbar_show_hide_idempotent (s : EditorState) :
    (s.airActive = true → showAirbar s = s) ∧
    (s.airActive = false → hideAirbar s = s) ∧
    showAirbar (showAirbar s) = showAirbar s ∧
    hideAirbar (hideAirbar s) = hideAirbar s := by
  obtain ⟨content, airbar, airActive, buttons, input, selection⟩ := s
  rcases airbar with _ | cls <;> cases airActive <;>
    simp [showAirbar, hideAirbar]

/-- Witness for C5: a shown state absorbs `showAirbar`, a hidden one
absorbs `hideAirbar`. -/
theorem airbar_show_hide_idempotent_witness :
    showAirbar
      { content := [], airbar := some ["active"], airActive := true,
        buttons := [], input := none, selection := ⟨true, true⟩ } =
      { content := [], airbar := some ["active"], airActive := true,
        buttons := [], input := none, selection := ⟨true, true⟩ } ∧
    hideAirbar
      { content := [], airbar := some [], airActive := false,
        buttons := [], input := none, selection := ⟨true, true⟩ } =
      { content := [], airbar := some [], airActive := false,
        buttons := [], input := none, selection := ⟨true, true⟩ } :=
  ⟨(airbar_show_hide_idempotent _).1 rfl,
   (airbar_show_hide_idempotent _).2.1 rfl⟩

/-! ## Claim C7 -/

/-- Claim C7: a truthy `autoSave`/`autoSync` interval is armed as the maximum
of the supplied value and the 1500 ms floor (and that is the value stored
back into the options record); in particular anything below 1500 ms is
clamped up to exactly 1500 ms. -/
theorem armedInterval_clamp (ms : Int) (h : ms ≠ 0) :
    armedInterval ms = some (max ms 1500) ∧ 1500 ≤ max ms 1500 ∧
    (ms < 1500 → armedInterval ms = some 1500) := by
  refine ⟨by simp [armedInterval, h], le_max_right _ _, fun hlt => ?_⟩
  simp [armedInterval, h, max_eq_right hlt.le]

/-- Witness for C7 at the sub-floor interval 500 ms. -/
theorem armedInterval_clamp_witness :
    armedInterval 500 = some (max 500 1500) ∧ 1500 ≤ max (500 : Int) 1500 ∧
    ((500 : Int) < 1500 → armedInterval 500 = some 1500) :=
  armedInterval_clamp 500 (by decide)

/-! ## Claim C8 -/

/-- Claim C8 is false as stated: a tag absent from the command table need not
be a silent no-op.  The JS lookup `cmds[tag]` traverses the prototype chain,
so for `'toString'` — absent from the table — `cmd` is the inherited truthy
`Object.prototype.toString`, the `!tag || !cmd` guard does not return, and
`runCommand` calls `preventDefault` and then `doc.execCommand(undefined)`
(via `execute(cmd[0])` with `cmd[0]` undefined). -/
theorem runCommand_proto_counterexample :
    cmds "toString" = none ∧
    runCommand "toString" true true = [Act.prevent, Act.execUndefined] := by
  decide

/-- Claim C8 (amended): a falsy tag, or one that is neither an entry of the
command table nor an inherited `Object.prototype` member, makes `runCommand`
a silent no-op: the action trace is empty — no native command, no
`preventDefault`, no selection expansion, and no error reporting.  (For an
inherited-member tag such as `'toString'` the lookup is truthy and the guard
does not fire — see the counterexample.) -/
theorem runCommand_unknown_noop (tag : String) (hasSel hasEvent : Bool)
    (h : tag = "" ∨ (cmds tag = none ∧ tag ∉ protoKeys)) :
    runCommand tag hasSel hasEvent = [] := by
  rcases h with h | ⟨hc, hp⟩
  · subst h
    rfl
  · simp [runCommand, cmdsLookup, hc, hp]

/-- Witness for C8 at the unknown, non-inherited tag `"quote"`. -/
theorem runCommand_unknown_noop_witness :
    runCommand "quote" false true = [] :=
  runCommand_unknown_noop "quote" false true (Or.inr ⟨rfl, by decide⟩)

/-! ## Claim C9 -/

/-- Claim C9: after `setHTML('<script>evil()</script><p>hi</p>')`,
`safeHTML()` returns `'<p>hi</p>'` — the whole `<script>…</script>` block is
removed and the rest of the markup is untouched. -/
theorem setHTML_safeHTML_strips :
    safeHTML
      (setHTML
        { content := [], airbar := none, airActive := false, buttons := [],
          input := none, selection := ⟨true, true⟩ }
        ("<script>evil()</script><p>hi</p>".data)) = "<p>hi</p>".data := by
  decide

/-! ## Claim C10 -/

/-- Claim C10: every modelled operation on an Editor instance preserves the
equivalence between `airActive` and the configured airbar's class list
containing `"active"`; and when no airbar is configured, `showAirbar`,
`hideAirbar` and `toggleAirbar` change neither `airActive` nor any class
list (they return the state unchanged). -/
theorem airbar_class_flag_invariant (s : EditorState) (rt : Option Nat)
    (str : List Char) :
    (airbarInv s = true →
      airbarInv (showAirbar s) = true ∧ airbarInv (hideAirbar s) = true ∧
      airbarInv (toggleAirbar s) = true ∧ airbarInv (sync s) = true ∧
      airbarInv (onBlur s rt) = true ∧ airbarInv (onFocus s) = true ∧
      airbarInv (onMouseup s) = true ∧ airbarInv (setHTML s str) = true) ∧
    (s.airbar = none →
      showAirbar s = s ∧ hideAirbar s = s ∧ toggleAirbar s = s) := by
  constructor
  · intro h
    have hset : airbarInv (setHTML s str) = true := by
      simpa [airbarInv, setHTML] using h
    refine ⟨airbarInv_show s h, airbarInv_hide s h, ?_, airbarInv_sync s h,
      ?_, ?_, ?_, hset⟩
    · unfold toggleAirbar
      split
      · exact airbarInv_hide s h
      · exact airbarInv_show s h
    · unfold onBlur
      split
      · exact h
      · exact airbarInv_hide _ (airbarInv_sync s h)
    · unfold onFocus
      split
      · exact airbarInv_show s h
      · exact h
    · unfold onMouseup onSelection
      split
      · exact airbarInv_show s h
      · exact airbarInv_hide s h
  · intro hnone
    have h1 : showAirbar s = s := by simp [showAirbar, hnone]
    have h2 : hideAirbar s = s := by simp [hideAirbar, hnone]
    refine ⟨h1, h2, ?_⟩
    unfold toggleAirbar
    split <;> simp [h1, h2]

/-- Witness for C10: the invariant survives `showAirbar` on a shown state,
and `toggleAirbar` is inert without a configured airbar. -/
theorem airbar_class_flag_invariant_witness :
    airbarInv (showAirbar
      { content := [], airbar := some ["active"], airActive := true,
        buttons := [3], input := some [], selection := ⟨false, true⟩ }) = true ∧
    toggleAirbar
      { content := [], airbar := none, airActive := false,
        buttons := [], input := none, selection := ⟨true, true⟩ } =
      { content := [], airbar := none, airActive := false,
        buttons := [], input := none, selection := ⟨true, true⟩ } :=
  ⟨((airbar_class_flag_invariant _ (some 3) ['x']).1 (by decide)).1,
   ((airbar_class_flag_invariant _ none []).2 rfl).2.2⟩

/-! ## Claim C4 -/

/-- Claim C4 is false as stated: with a configured airbar, a blur event whose
`relatedTarget` is one of the registered toolbar/airbar buttons leaves the
airbar shown — `onBlur` returns early, before `hideAirbar` (src/index.js
lines 261–263). -/
theorem onBlur_button_counterexample :
    ({ content := [], airbar := some ["active"], airActive := true,
       buttons := [7], input := none, selection := ⟨false, true⟩
       : EditorState }).airbar.isSome = true ∧
    (onBlur
      { content := [], airbar := some ["active"], airActive := true,
        buttons := [7], input := none, selection := ⟨false, true⟩ }
      (some 7)).airActive = true := by
  decide

/-- Claim C4 (amended): with a configured airbar, a blur event whose
`relatedTarget` is not one of the registered toolbar/airbar buttons drives
the airbar state machine to hidden, and a selection (mouseup) event whose
selection fails the qualifying check drives it to hidden. -/
theorem airbar_hidden_on_blur_or_bad_selection (s : EditorState)
    (rt : Option Nat) (cls : List String) (hbar : s.airbar = some cls)
    (hrt : ∀ b, rt = some b → b ∉ s.buttons) :
    (onBlur s rt).airActive = false ∧
    (hasSelectionState s = none → (onMouseup s).airActive = false) := by
  have hsb : (sync s).airbar = some cls := by
    rw [(sync_airbar s).1, hbar]
  constructor
  · rcases rt with _ | b
    · simp only [onBlur]
      simpa using hideAirbar_airActive (sync s) cls hsb
    · have hb : b ∉ s.buttons := hrt b rfl
      simp only [onBlur, hb, decide_eq_false, if_false]
      simpa using hideAirbar_airActive (sync s) cls hsb
  · intro hsel
    simp only [onMouseup, hsel]
    exact hideAirbar_airActive s cls hbar

/-- Witness for C4 (amended): blur with no related target, then a mouseup on
a collapsed selection, both hide a shown airbar. -/
theorem airbar_hidden_on_blur_or_bad_selection_witness :
    (onBlur
      { content := [], airbar := some ["active"], airActive := true,
        buttons := [7], input := none, selection := ⟨true, true⟩ }
      none).airActive = false ∧
    (onMouseup
      { content := [], airbar := some ["active"], airActive := true,
        buttons := [7], input := none, selection := ⟨true, true⟩ }).airActive
      = false :=
  ⟨(airbar_hidden_on_blur_or_bad_selection _ none ["active"] rfl
      (fun _ hb => nomatch hb)).1,
   (airbar_hidden_on_blur_or_bad_selection _ none ["active"] rfl
      (fun _ hb => nomatch hb)).2 rfl⟩

/-! ## Claim C3 -/

/-- The run of a debounced wrapper with a pending timer: as long as every
remaining call lands strictly inside the current quiet period, the timer is
repeatedly re-armed (never duplicated), and `func` finally runs exactly once,
one full `wait` after the last call. -/
theorem debRun_chain (wait : Nat) :
    ∀ (calls : List Nat) (time d : Nat), time < d → d ≤ time + wait →
      List.Chain (fun a b => a < b ∧ b < a + wait) time calls →
      debRun wait calls time (some d) = [calls.getLastD time + wait] := by
  intro calls
  induction calls with
  | nil =>
    intro time d h1 h2 _
    by_cases hlt : d - time < wait
    · rw [debRun.eq_def]
      simp only [if_pos hlt]
      rw [debRun.eq_def]
      have hn : ¬ (time + wait - time < wait) := by omega
      simp only [if_neg hn]
      rw [debRun.eq_def]
      simp [List.getLastD]
    · rw [debRun.eq_def]
      simp only [if_neg hlt]
      rw [debRun.eq_def]
      have hd : d = time + wait := by omega
      simp [List.getLastD, hd]
  | cons c rest ih =>
    intro time d h1 h2 hchain
    rw [List.chain_cons] at hchain
    obtain ⟨⟨hc1, hc2⟩, hchain'⟩ := hchain
    rw [debRun.eq_def]
    by_cases hcd : c < d
    · simp only [if_pos hcd]
      rw [ih c d hcd (by omega) hchain', getLastD_cons_eq]
    · simp only [if_neg hcd]
      have hd : d - time < wait := by omega
      simp only [if_pos hd]
      rw [debRun.eq_def]
      simp only [if_pos (show c < time + wait by omega)]
      rw [ih c (time + wait) (by omega) (by omega) hchain', getLastD_cons_eq]

/-- Claim C3: trailing-edge debounce.  For any positive interval and any
sequence of `N ≥ 1` calls in which each call comes strictly less than the
interval after the previous one, the wrapped function fires exactly once
(the result is a one-element list of firing times), and it fires exactly one
interval after the last call; an event arriving while the timer is pending
only moves the deadline, it never schedules a second invocation. -/
theorem debounce_trailing_edge (wait : Nat) (hw : 0 < wait) (c : Nat)
    (rest : List Nat)
    (hchain : List.Chain (fun a b => a < b ∧ b < a + wait) c rest) :
    debounceRun wait (c :: rest) = [rest.getLastD c + wait] := by
  unfold debounceRun
  rw [debRun.eq_def]
  exact debRun_chain wait rest c (c + wait) (by omega) (by omega) hchain

/-- Witness for C3: three calls at 0, 5 and 9 ms with a 10 ms interval fire
once, at 19 ms. -/
theorem debounce_trailing_edge_witness :
    debounceRun 10 [0, 5, 9] = [List.getLastD [5, 9] 0 + 10] :=
  debounce_trailing_edge 10 (by decide) 0 [5, 9] (by simp [List.chain_cons])

/-! ## Claim C6 -/

/-- A list with no newline and no `<br>`/`<br/>` occurrence is unchanged by
`stripBreaks`. -/
theorem stripBreaks_self (l : List Char)
    (h1 : ¬ ['\n'] <:+: l)
    (h2 : ¬ "<br/>".data <:+: l)
    (h3 : ¬ "<br>".data <:+: l) :
    stripBreaks l = l := by
  induction l using stripBreaks.induct with
  | case1 => rfl
  | case2 cs ih => exact absurd ⟨[], cs, rfl⟩ h1
  | case3 cs ih => exact absurd ⟨[], cs, rfl⟩ h2
  | case4 cs ih => exact absurd ⟨[], cs, rfl⟩ h3
  | case5 c cs hn1 hn2 hn3 ih =>
    rw [stripBreaks.eq_5 c cs hn1 hn2 hn3,
      ih (fun hi => h1 (List.infix_cons hi))
        (fun hi => h2 (List.infix_cons hi))
        (fun hi => h3 (List.infix_cons hi))]

/-- A list with no `<div></div>` and no `<p></p>` occurrence is unchanged by
any run of the empty-block scanner. -/
theorem stripEmptyBlocksGo_self : ∀ (fuel : Nat) (t : List Char),
    ¬ "<div></div>".data <:+: t → ¬ "<p></p>".data <:+: t →
    stripEmptyBlocksGo fuel t = t := by
  intro fuel t
  induction fuel, t using stripEmptyBlocksGo.induct with
  | case1 l => intro _ _; rw [stripEmptyBlocksGo.eq_1]
  | case2 t ht => intro _ _; cases t <;> rfl
  | case3 fuel c cs hpre ih =>
    intro hd _
    exact absurd (List.isPrefixOf_iff_prefix.mp hpre).isInfix hd
  | case4 fuel c cs hnd hpre ih =>
    intro _ hp
    exact absurd (List.isPrefixOf_iff_prefix.mp hpre).isInfix hp
  | case5 fuel c cs hnd hnp ih =>
    intro hd hp
    rw [stripEmptyBlocksGo.eq_3, if_neg hnd, if_neg hnp,
      ih (fun hi => hd (List.infix_cons hi)) (fun hi => hp (List.infix_cons hi))]

/-- A list with no `<div></div>` and no `<p></p>` occurrence is unchanged by
`stripEmptyBlocks`. -/
theorem stripEmptyBlocks_self (l : List Char)
    (h1 : ¬ "<div></div>".data <:+: l)
    (h2 : ¬ "<p></p>".data <:+: l) :
    stripEmptyBlocks l = l :=
  stripEmptyBlocksGo_self l.length l h1 h2

/-- A list with no `&nbsp;` occurrence is unchanged by `replaceNbsp`. -/
theorem replaceNbsp_self (l : List Char)
    (h : ¬ "&nbsp;".data <:+: l) :
    replaceNbsp l = l := by
  induction l using replaceNbsp.induct with
  | case1 => rfl
  | case2 cs ih => exact absurd ⟨[], cs, rfl⟩ h
  | case3 c cs hn ih =>
    rw [replaceNbsp.eq_3 c cs hn, ih (fun hi => h (List.infix_cons hi))]

/-- Joint identity lemma for the `tabsLt` scanner states on inputs with no
tab-immediately-before-`<` occurrence (every match of `/[\t\t]+</` ends in
one). -/
theorem tabsLt_aux : ∀ (k : Nat) (l : List Char), l.length ≤ k →
    (¬ ('\t' :: '<' :: []) <:+: l → tabsLt l = l) ∧
    (∀ n, ¬ ('\t' :: '<' :: []) <:+: ('\t' :: l) →
      tabsLtRun n l = List.replicate (n + 1) '\t' ++ l) := by
  intro k
  induction k with
  | zero =>
    intro l hl
    have hnil : l = [] := List.length_eq_zero.mp (Nat.le_zero.mp hl)
    subst hnil
    refine ⟨fun _ => rfl, fun n _ => ?_⟩
    simp [tabsLtRun]
  | succ k ih =>
    intro l hl
    constructor
    · intro h
      rw [tabsLt.eq_def]
      split
      · rfl
      · rename_i cs
        have hcs : cs.length ≤ k := by simp at hl; omega
        have := (ih cs hcs).2 0 h
        simpa using this
      · rename_i c cs hne
        have hcs : cs.length ≤ k := by simp at hl; omega
        rw [(ih cs hcs).1 (fun hi => h (List.infix_cons hi))]
    · intro n h
      rw [tabsLtRun.eq_def]
      split
      · rename_i cs
        have hcs : cs.length ≤ k := by simp at hl; omega
        have h2 : ¬ ('\t' :: '<' :: []) <:+: ('\t' :: cs) :=
          fun hi => h (List.infix_cons hi)
        rw [(ih cs hcs).2 (n + 1) h2]
        simp [List.replicate_succ', List.append_assoc]
      · rename_i cs
        exact absurd ⟨[], cs, rfl⟩ h
      · simp
      · rename_i c cs hne1 hne2
        have hcs : cs.length ≤ k := by simp at hl; omega
        rw [(ih cs hcs).1
          (fun hi => h (List.infix_cons (List.infix_cons hi)))]

/-- A list with no tab-immediately-before-`<` occurrence is unchanged by
`tabsLt`. -/
theorem tabsLt_self (l : List Char) (h : ¬ ('\t' :: '<' :: []) <:+: l) :
    tabsLt l = l :=
  (tabsLt_aux l.length l le_rfl).1 h

/-- Joint identity lemma for the `gtTabs` scanner states on inputs with no
tab-immediately-before-`<` occurrence (every match of `/>[\t\t]+</` contains
one). -/
theorem gtTabs_aux : ∀ (k : Nat) (l : List Char), l.length ≤ k →
    (¬ ('\t' :: '<' :: []) <:+: l → gtTabs l = l) ∧
    (¬ ('\t' :: '<' :: []) <:+: l → gtTabsGt l = '>' :: l) ∧
    (∀ n, ¬ ('\t' :: '<' :: []) <:+: ('\t' :: l) →
      gtTabsRun n l = '>' :: List.replicate (n + 1) '\t' ++ l) := by
  intro k
  induction k with
  | zero =>
    intro l hl
    have hnil : l = [] := List.length_eq_zero.mp (Nat.le_zero.mp hl)
    subst hnil
    refine ⟨fun _ => rfl, fun _ => rfl, fun n _ => ?_⟩
    simp [gtTabsRun]
  | succ k ih =>
    intro l hl
    refine ⟨?_, ?_, ?_⟩
    · intro h
      rw [gtTabs.eq_def]
      split
      · rfl
      · rename_i cs
        have hcs : cs.length ≤ k := by simp at hl; omega
        rw [(ih cs hcs).2.1 (fun hi => h (List.infix_cons hi))]
      · rename_i c cs hne
        have hcs : cs.length ≤ k := by simp at hl; omega
        rw [(ih cs hcs).1 (fun hi => h (List.infix_cons hi))]
    · intro h
      rw [gtTabsGt.eq_def]
      split
      · rename_i cs
        have hcs : cs.length ≤ k := by simp at hl; omega
        rw [(ih cs hcs).2.2 0 h]
        simp
      · rfl
      · rename_i cs
        have hcs : cs.length ≤ k := by simp at hl; omega
        rw [(ih cs hcs).2.1 (fun hi => h (List.infix_cons hi))]
      · rename_i c cs hne1 hne2
        have hcs : cs.length ≤ k := by simp at hl; omega
        rw [(ih cs hcs).1 (fun hi => h (List.infix_cons hi))]
    · intro n h
      rw [gtTabsRun.eq_def]
      split
      · rename_i cs
        have hcs : cs.length ≤ k := by simp at hl; omega
        rw [(ih cs hcs).2.2 (n + 1) (fun hi => h (List.infix_cons hi))]
        simp [List.replicate_succ', List.append_assoc]
      · rename_i cs
        exact absurd ⟨[], cs, rfl⟩ h
      · simp
      · rename_i cs
        have hcs : cs.length ≤ k := by simp at hl; omega
        rw [(ih cs hcs).2.1
          (fun hi => h (List.infix_cons (List.infix_cons hi)))]
      · rename_i c cs hne1 hne2 hne3
        have hcs : cs.length ≤ k := by simp at hl; omega
        rw [(ih cs hcs).1
          (fun hi => h (List.infix_cons (List.infix_cons hi)))]

/-- A list with no tab-immediately-before-`<` occurrence is unchanged by
`gtTabs`. -/
theorem gtTabs_self (l : List Char) (h : ¬ ('\t' :: '<' :: []) <:+: l) :
    gtTabs l = l :=
  (gtTabs_aux l.length l le_rfl).1 h

/-- A list not ending in `>` followed by tabs is unchanged by `gtTabsEnd`. -/
theorem gtTabsEnd_self (l : List Char) (h : hasGtTabsSuffix l = false) :
    gtTabsEnd l = l := by
  induction l using gtTabsEnd.induct with
  | case1 => rfl
  | case2 cs htab =>
    exfalso
    simp [hasGtTabsSuffix, htab] at h
  | case3 cs htab ih =>
    have h2 : hasGtTabsSuffix cs = false := by
      simp [hasGtTabsSuffix] at h
      exact h.2
    rw [gtTabsEnd.eq_2, if_neg htab, ih h2]
  | case4 c cs hne ih =>
    rw [hasGtTabsSuffix.eq_3 c cs hne] at h
    rw [gtTabsEnd.eq_3 c cs hne, ih h]

/-- Dropping the head preserves the absence of adjacent whitespace pairs. -/
theorem hasWW_tail (c : Char) (cs : List Char) (h : hasWW (c :: cs) = false) :
    hasWW cs = false := by
  cases cs with
  | nil => rfl
  | cons c2 cs2 =>
    simp [hasWW] at h
    simp [hasWW, h.2]

/-- Joint identity lemma for the `shrinkWS` scanner states on inputs with no
two adjacent whitespace characters (every match of `/\s\s+/` starts with
two). -/
theorem shrinkWS_aux : ∀ (k : Nat) (l : List Char), l.length ≤ k →
    (hasWW l = false → shrinkWS l = l) ∧
    (∀ c0, isWS c0 = true → hasWW (c0 :: l) = false →
      shrinkRun c0 0 l = c0 :: l) := by
  intro k
  induction k with
  | zero =>
    intro l hl
    have hnil : l = [] := List.length_eq_zero.mp (Nat.le_zero.mp hl)
    subst hnil
    exact ⟨fun _ => rfl, fun c0 _ _ => by simp [shrinkRun]⟩
  | succ k ih =>
    intro l hl
    constructor
    · intro h
      cases l with
      | nil => rfl
      | cons c cs =>
        have hcs : cs.length ≤ k := by simp at hl; omega
        by_cases hws : isWS c = true
        · rw [shrinkWS.eq_2, if_pos hws]
          exact (ih cs hcs).2 c hws h
        · rw [shrinkWS.eq_2, if_neg hws,
            (ih cs hcs).1 (hasWW_tail c cs h)]
    · intro c0 hc0 h
      cases l with
      | nil => simp [shrinkRun]
      | cons c cs =>
        have hcs : cs.length ≤ k := by simp at hl; omega
        have hparts : isWS c = false ∧ hasWW (c :: cs) = false := by
          cases cs with
          | nil =>
            simp [hasWW, hc0] at h
            exact ⟨h, rfl⟩
          | cons c2 cs2 =>
            simp [hasWW, hc0] at h
            exact ⟨h.1, by simp [hasWW, h.1, h.2.2]⟩
        rw [shrinkRun.eq_2, if_neg (by simp [hparts.1]), if_pos rfl,
          (ih cs hcs).1 (hasWW_tail c cs hparts.2)]

/-- A list with no two adjacent whitespace characters is unchanged by
`shrinkWS`. -/
theorem shrinkWS_self (l : List Char) (h : hasWW l = false) :
    shrinkWS l = l :=
  (shrinkWS_aux l.length l le_rfl).1 h

/-- A string containing none of the patterns replaced by the
`cleanHTML`/`minifyHTML` pipeline is a fixed point of `minifyHTMLstr`. -/
theorem minifyHTMLstr_fixed (t : List Char)
    (h1 : ¬ ['\n'] <:+: t)
    (h2 : ¬ "<br/>".data <:+: t)
    (h3 : ¬ "<br>".data <:+: t)
    (h4 : ¬ "<div></div>".data <:+: t)
    (h5 : ¬ "<p></p>".data <:+: t)
    (h6 : ¬ "&nbsp;".data <:+: t)
    (h7 : ¬ ('\t' :: '<' :: []) <:+: t)
    (h8 : hasGtTabsSuffix t = false)
    (h9 : hasWW t = false) :
    minifyHTMLstr t = t := by
  unfold minifyHTMLstr cleanHTMLstr
  rw [stripBreaks_self t h1 h2 h3, stripEmptyBlocks_self t h4 h5,
    replaceNbsp_self t h6, tabsLt_self t h7, gtTabs_self t h7,
    gtTabsEnd_self t h8, shrinkWS_self t h9]

/-- Claim C6 is false as stated: `minifyHTML` is not idempotent.  On
`'<div><div></div></div>'` one application removes the inner empty
`<div></div>` pair, creating a new one that only a second application
removes (`'<div></div>'` vs `''`). -/
theorem minifyHTML_not_idempotent :
    minifyHTMLstr (minifyHTMLstr "<div><div></div></div>".data) ≠
      minifyHTMLstr "<div><div></div></div>".data := by
  decide

/-- Claim C6 (amended): applying the minification pipeline twice yields the
same output as applying it once on every input whose minified form contains
no residual occurrence of a replaced pattern — no newline or `<br>`/`<br/>`,
no empty `<div></div>`/`<p></p>` pair, no `&nbsp;`, no tab immediately
before a `<`, no trailing `>`-then-tabs, and no two adjacent whitespace
characters.  (In general a single application can create fresh occurrences —
see the counterexample — so unrestricted idempotence fails.) -/
theorem minifyHTML_idempotent_on_stable (l : List Char)
    (h1 : ¬ ['\n'] <:+: minifyHTMLstr l)
    (h2 : ¬ "<br/>".data <:+: minifyHTMLstr l)
    (h3 : ¬ "<br>".data <:+: minifyHTMLstr l)
    (h4 : ¬ "<div></div>".data <:+: minifyHTMLstr l)
    (h5 : ¬ "<p></p>".data <:+: minifyHTMLstr l)
    (h6 : ¬ "&nbsp;".data <:+: minifyHTMLstr l)
    (h7 : ¬ ('\t' :: '<' :: []) <:+: minifyHTMLstr l)
    (h8 : hasGtTabsSuffix (minifyHTMLstr l) = false)
    (h9 : hasWW (minifyHTMLstr l) = false) :
    minifyHTMLstr (minifyHTMLstr l) = minifyHTMLstr l :=
  minifyHTMLstr_fixed (minifyHTMLstr l) h1 h2 h3 h4 h5 h6 h7 h8 h9

/-- Witness for C6 (amended) on `'<p>hi</p>'`, whose minified form is itself
and pattern-free. -/
theorem minifyHTML_idempotent_on_stable_witness :
    minifyHTMLstr (minifyHTMLstr "<p>hi</p>".data) =
      minifyHTMLstr "<p>hi</p>".data :=
  minifyHTML_idempotent_on_stable "<p>hi</p>".data (by decide) (by decide)
    (by decide) (by decide) (by decide) (by decide) (by decide) (by decide)
    (by decide)

end EditorLite
